import Mathlib

/-!
Shallow embedding of the blackjack engine in `blackjack.py` (single-player
casino blackjack with side bets, insurance/even-money, splitting, doubling),
together with proofs settling the specification claims.

Modelling conventions:
* Money is in integer cents (`Nat`); the bankroll is `Option Nat` because it
  is `None` until the first deposit.
* `random.shuffle` is modelled by an explicit `shuffle` parameter; theorems
  that depend on it assume it permutes (or preserves the length of) its input.
* Presentation-only effects (flash messages, chip animation, timestamps,
  card-string formatting) are omitted from the state: the spec declares them
  out of scope, and no claim mentions them.
* Python list indexing `xs[i]` crashes on out-of-range; the embedding
  matches on `xs[i]?` and returns the state unchanged in the (unreachable
  on the claims' hypotheses) `none` case.  Likewise `Shoe.deal` returns `Option`
  because a zero-deck shoe cannot produce a card.
-/

-- ───────── Cards & values ─────────

inductive Rank where
  | ace | two | three | four | five | six | seven | eight | nine | ten
  | jack | queen | king
deriving DecidableEq, Repr

inductive Suit where
  | spades | hearts | diamonds | clubs
deriving DecidableEq, Repr

abbrev Card := Rank × Suit

open Rank Suit

/-- Source list `RANKS`, in source order. -/
def RANKS : List Rank :=
  [ace, two, three, four, five, six, seven, eight, nine, ten, jack, queen, king]

/-- Source list `SUITS`, in source order. -/
def SUITS : List Suit := [spades, hearts, diamonds, clubs]

/-- `RED = {"♥","♦"}`. -/
def isRed (s : Suit) : Bool := s = hearts ∨ s = diamonds

/-- Source table `RANK_ORDER`: poker ordering for the 21+3 straight test (Ace high = 14). -/
def RANK_ORDER (r : Rank) : Nat :=
  match r with
  | ace => 14 | king => 13 | queen => 12 | jack => 11 | ten => 10
  | nine => 9 | eight => 8 | seven => 7 | six => 6 | five => 5
  | four => 4 | three => 3 | two => 2

/-- Source `card_value(rank)`: blackjack base value (Ace high = 11). -/
def card_value (r : Rank) : Nat :=
  match r with
  | ten | jack | queen | king => 10
  | ace => 11
  | two => 2 | three => 3 | four => 4 | five => 5 | six => 6
  | seven => 7 | eight => 8 | nine => 9

/-- The hard value of a rank (every Ace counted as 1). -/
def hardValue (r : Rank) : Nat := if r = ace then 1 else card_value r

/-- The `while total > 21 and aces > 0: total -= 10; aces -= 1` loop
of `hand_value`, recursing on the remaining ace count. -/
def softAdjust (total : Nat) : Nat → Nat
  | 0 => total
  | a + 1 => if 21 < total then softAdjust (total - 10) a else total

/-- Sum of base values (`total` accumulated in `hand_value`'s for-loop). -/
def baseTotal (cards : List Card) : Nat :=
  (cards.map (fun c => card_value c.1)).sum

/-- Number of aces in the hand (`aces` accumulated in `hand_value`'s for-loop). -/
def aceCount (cards : List Card) : Nat :=
  cards.countP (fun c => c.1 = ace)

/-- Source `hand_value(cards)`: best blackjack total, demoting aces 11 → 1 while bust. -/
def hand_value (cards : List Card) : Nat :=
  softAdjust (baseTotal cards) (aceCount cards)

/-- Source `is_blackjack(cards)`: a two-card natural 21. -/
def is_blackjack (cards : List Card) : Bool :=
  cards.length = 2 ∧ hand_value cards = 21

/-- Hard total of the hand: every ace counted as 1. -/
def hardTotal (cards : List Card) : Nat :=
  (cards.map (fun c => hardValue c.1)).sum

/-- All totals obtainable by independently counting each Ace as 1 or 11
(non-ace cards at face value).  Spec-side notion for claim C5. -/
def choiceTotals : List Card → List Nat
  | [] => [0]
  | c :: cs =>
      let rest := choiceTotals cs
      if c.1 = ace then rest.map (· + 1) ++ rest.map (· + 11)
      else rest.map (· + card_value c.1)

-- ───────── hand_value characterisation ─────────

lemma baseTotal_cons (c : Card) (cs : List Card) :
    baseTotal (c :: cs) = card_value c.1 + baseTotal cs := by
  simp [baseTotal]

lemma hardTotal_cons (c : Card) (cs : List Card) :
    hardTotal (c :: cs) = hardValue c.1 + hardTotal cs := by
  simp [hardTotal]

lemma aceCount_cons (c : Card) (cs : List Card) :
    aceCount (c :: cs) = (if c.1 = ace then 1 else 0) + aceCount cs := by
  by_cases h : c.1 = ace <;>
    simp [aceCount, List.countP_cons, h, Nat.add_comm]

lemma card_value_eq_hardValue_of_ne_ace {r : Rank} (h : ¬ r = ace) :
    card_value r = hardValue r := by
  simp [hardValue, h]

lemma hardValue_pos (r : Rank) : 1 ≤ hardValue r := by
  cases r <;> simp [hardValue, card_value]

lemma baseTotal_eq (cards : List Card) :
    baseTotal cards = hardTotal cards + 10 * aceCount cards := by
  induction cards with
  | nil => simp [baseTotal, hardTotal, aceCount]
  | cons c cs ih =>
      rw [baseTotal_cons, hardTotal_cons, aceCount_cons, ih]
      by_cases h : c.1 = ace
      · simp [h, hardValue, card_value]; ring
      · rw [card_value_eq_hardValue_of_ne_ace h]; simp [h]; ring

/-- Membership in `choiceTotals` is exactly: hard total plus 10 for each of
`k ≤ aceCount` aces promoted to 11. -/
lemma choiceTotals_char (cards : List Card) (t : Nat) :
    t ∈ choiceTotals cards ↔ ∃ k ≤ aceCount cards, t = hardTotal cards + 10 * k := by
  induction cards generalizing t with
  | nil =>
      simp [choiceTotals, hardTotal, aceCount]
  | cons c cs ih =>
      rw [hardTotal_cons, aceCount_cons]
      by_cases h : c.1 = ace
      · have hv : hardValue c.1 = 1 := by rw [h]; rfl
        rw [hv]
        simp only [choiceTotals, h, if_true, List.mem_append, List.mem_map]
        constructor
        · rintro (⟨t', ht', rfl⟩ | ⟨t', ht', rfl⟩) <;>
            obtain ⟨k, hk, rfl⟩ := (ih t').mp ht'
          · exact ⟨k, by omega, by omega⟩
          · exact ⟨k + 1, by omega, by omega⟩
        · rintro ⟨k, hk, hk2⟩
          by_cases hka : k ≤ aceCount cs
          · exact Or.inl ⟨hardTotal cs + 10 * k, (ih _).mpr ⟨k, hka, rfl⟩, by omega⟩
          · exact Or.inr ⟨hardTotal cs + 10 * aceCount cs,
              (ih _).mpr ⟨aceCount cs, le_refl _, rfl⟩, by omega⟩
      · have hv : card_value c.1 = hardValue c.1 := card_value_eq_hardValue_of_ne_ace h
        simp only [choiceTotals, h, if_false, List.mem_map]
        rw [hv]
        constructor
        · rintro ⟨t', ht', rfl⟩
          obtain ⟨k, hk, rfl⟩ := (ih t').mp ht'
          exact ⟨k, by omega, by omega⟩
        · rintro ⟨k, hk, hk2⟩
          exact ⟨hardTotal cs + 10 * k, (ih _).mpr ⟨k, by omega, rfl⟩, by omega⟩

/-- Closed form of the ace-demotion loop. -/
lemma softAdjust_eq (b : Nat) : ∀ a : Nat, softAdjust (b + 10 * a) a =
    if b + 10 * a ≤ 21 then b + 10 * a
    else if b ≤ 21 then b + 10 * ((21 - b) / 10)
    else b := by
  intro a
  induction a generalizing b with
  | zero =>
      simp only [softAdjust, Nat.mul_zero, Nat.add_zero]
      split_ifs <;> omega
  | succ n ih =>
      show softAdjust (b + 10 * (n + 1)) (n + 1) = _
      simp only [softAdjust]
      by_cases hgt : 21 < b + 10 * (n + 1)
      · rw [if_pos hgt]
        have harg : b + 10 * (n + 1) - 10 = b + 10 * n := by omega
        rw [harg, ih b]
        split_ifs <;> omega
      · rw [if_neg hgt]
        split_ifs <;> omega

lemma hand_value_eq (cards : List Card) :
    hand_value cards =
      if baseTotal cards ≤ 21 then baseTotal cards
      else if hardTotal cards ≤ 21 then
        hardTotal cards + 10 * ((21 - hardTotal cards) / 10)
      else hardTotal cards := by
  have h := softAdjust_eq (hardTotal cards) (aceCount cards)
  rw [hand_value, baseTotal_eq, h]

/-- C5: `hand_value` returns the maximum total ≤ 21 obtainable by counting
each Ace as 1 or 11 (non-aces at face value) whenever some choice of ace
values achieves ≤ 21; otherwise the minimum obtainable total, every Ace
counted as 1. -/
theorem hand_value_best_total (cards : List Card) :
    ((∃ t ∈ choiceTotals cards, t ≤ 21) →
      hand_value cards ∈ choiceTotals cards ∧ hand_value cards ≤ 21 ∧
        ∀ t ∈ choiceTotals cards, t ≤ 21 → t ≤ hand_value cards)
    ∧ ((∀ t ∈ choiceTotals cards, 21 < t) →
      hand_value cards = hardTotal cards ∧
        ∀ t ∈ choiceTotals cards, hand_value cards ≤ t) := by
  have heq := hand_value_eq cards
  rw [baseTotal_eq cards] at heq
  constructor
  · rintro ⟨t, ht, ht21⟩
    obtain ⟨k, hk, rfl⟩ := (choiceTotals_char cards _).mp ht
    have hble : hardTotal cards ≤ 21 := by omega
    by_cases hcase : hardTotal cards + 10 * aceCount cards ≤ 21
    · rw [if_pos hcase] at heq
      refine ⟨(choiceTotals_char cards _).mpr ⟨aceCount cards, le_refl _, heq⟩,
        by omega, ?_⟩
      intro t ht' ht21'
      obtain ⟨k', hk', rfl⟩ := (choiceTotals_char cards _).mp ht'
      omega
    · rw [if_neg hcase, if_pos hble] at heq
      refine ⟨(choiceTotals_char cards _).mpr
        ⟨(21 - hardTotal cards) / 10, by omega, heq⟩, by omega, ?_⟩
      intro t ht' ht21'
      obtain ⟨k', hk', rfl⟩ := (choiceTotals_char cards _).mp ht'
      omega
  · intro hall
    have hbmem : hardTotal cards ∈ choiceTotals cards :=
      (choiceTotals_char cards _).mpr ⟨0, Nat.zero_le _, by omega⟩
    have hbgt : 21 < hardTotal cards := hall _ hbmem
    rw [if_neg (by omega), if_neg (by omega)] at heq
    refine ⟨heq, ?_⟩
    intro t ht'
    obtain ⟨k', hk', rfl⟩ := (choiceTotals_char cards _).mp ht'
    omega

/-- Witness for C5 at the concrete hand K♠ 5♦ A♥ (best total 16). -/
theorem hand_value_best_total_witness :
    hand_value [(king, spades), (five, diamonds), (ace, hearts)]
        ∈ choiceTotals [(king, spades), (five, diamonds), (ace, hearts)] ∧
      hand_value [(king, spades), (five, diamonds), (ace, hearts)] ≤ 21 := by
  have h := (hand_value_best_total
      [(king, spades), (five, diamonds), (ace, hearts)]).1 (by decide)
  exact ⟨h.1, h.2.1⟩

-- ───────── Shoe ─────────

/-- One 52-card deck in source construction order (`for r in RANKS for s in SUITS`). -/
def singleDeck : List Card := RANKS.flatMap (fun r => SUITS.map (fun s => (r, s)))

/-- Full shoe contents `[(r,s) for _ in range(decks) for r in RANKS for s in SUITS]`. -/
def freshCards (decks : Nat) : List Card :=
  (List.range decks).flatMap (fun _ => singleDeck)

structure Shoe where
  decks : Nat
  cards : List Card
deriving Repr, DecidableEq

/-- Constructor `Shoe.__init__`: a fresh shuffled shoe of `decks` decks;
`random.shuffle` is abstracted by the `shuffle` parameter. -/
def Shoe.init (shuffle : List Card → List Card) (decks : Nat) : Shoe :=
  { decks := decks, cards := shuffle (freshCards decks) }

/-- Python `list.pop()`: remove and return the last element. -/
def popLast (l : List Card) : Option (Card × List Card) :=
  match l.getLast? with
  | none => none
  | some c => some (c, l.dropLast)

/-- Source `Shoe.deal`: when the shoe is empty, first rebuild and reshuffle a full
fresh shoe of the same deck count (`self.__init__(self.decks)`), then pop.
`none` arises only for a zero-deck shoe, where Python would raise. -/
def Shoe.deal (shuffle : List Card → List Card) (sh : Shoe) : Option (Card × Shoe) :=
  let sh' := if sh.cards.isEmpty then Shoe.init shuffle sh.decks else sh
  match popLast sh'.cards with
  | none => none
  | some (c, rest) => some (c, { sh' with cards := rest })

lemma popLast_concat (l : List Card) (c : Card) : popLast (l ++ [c]) = some (c, l) := by
  simp [popLast, List.getLast?_concat]

lemma singleDeck_length : singleDeck.length = 52 := rfl

lemma singleDeck_count (c : Card) : singleDeck.countP (fun x => x = c) = 1 := by
  obtain ⟨r, s⟩ := c
  cases r <;> cases s <;> rfl

lemma freshCards_length (d : Nat) : (freshCards d).length = d * 52 := by
  induction d with
  | zero => rfl
  | succ n ih =>
      rw [freshCards, List.range_succ, List.flatMap_append]
      simp only [List.flatMap_cons, List.flatMap_nil, List.append_nil,
        List.length_append]
      rw [freshCards] at ih
      rw [ih, singleDeck_length]
      ring

lemma freshCards_count (d : Nat) (c : Card) :
    (freshCards d).countP (fun x => x = c) = d := by
  induction d with
  | zero => rfl
  | succ n ih =>
      rw [freshCards, List.range_succ, List.flatMap_append]
      simp only [List.flatMap_cons, List.flatMap_nil, List.append_nil,
        List.countP_append]
      rw [freshCards] at ih
      rw [ih, singleDeck_count]


lemma Shoe.init_cards (shuffle : List Card → List Card) (d : Nat) :
    (Shoe.init shuffle d).cards = shuffle (freshCards d) := rfl

lemma Shoe.init_decks (shuffle : List Card → List Card) (d : Nat) :
    (Shoe.init shuffle d).decks = d := rfl

lemma shoe_deal_concat (shuffle : List Card → List Card) (sh : Shoe)
    (l : List Card) (a : Card) (h : sh.cards = l ++ [a]) :
    Shoe.deal shuffle sh = some (a, { decks := sh.decks, cards := l }) := by
  rw [Shoe.deal]
  have hne : sh.cards.isEmpty = false := by rw [h]; simp
  rw [hne]
  simp only [Bool.false_eq_true, if_false, h, popLast_concat]

/-- C9: a `Shoe` of `d ≥ 1` decks is built with exactly `d × 52` cards (each
rank–suit combination once per deck, up to the shuffle permutation);
`deal` always returns a card: on a non-empty shoe it removes and returns the
top (last) card, and on an empty shoe it rebuilds a fresh `d × 52`-card shoe
and deals from it. -/
theorem shoe_deal_spec (shuffle : List Card → List Card)
    (hs : ∀ l, List.Perm (shuffle l) l) (d : Nat) (hd : 1 ≤ d) (sh : Shoe)
    (hdecks : sh.decks = d) :
    ((Shoe.init shuffle d).cards.length = d * 52 ∧
      ∀ c : Card, (Shoe.init shuffle d).cards.countP (fun x => x = c) = d)
    ∧ (∃ c sh', Shoe.deal shuffle sh = some (c, sh'))
    ∧ (∀ c sh', Shoe.deal shuffle sh = some (c, sh') →
        sh'.decks = d ∧
        (sh.cards ≠ [] → sh.cards = sh'.cards ++ [c]) ∧
        (sh.cards = [] → sh'.cards.length = d * 52 - 1 ∧
          shuffle (freshCards d) = sh'.cards ++ [c])) := by
  have hinit_len : ∀ d' : Nat, (Shoe.init shuffle d').cards.length = d' * 52 := by
    intro d'
    rw [Shoe.init_cards, (hs (freshCards d')).length_eq, freshCards_length]
  refine ⟨⟨hinit_len d, ?_⟩, ?_⟩
  · intro c
    rw [Shoe.init_cards, (hs (freshCards d)).countP_eq, freshCards_count]
  · rcases List.eq_nil_or_concat sh.cards with hnil | ⟨l', a, hcat⟩
    · -- empty shoe: rebuild first, then pop the rebuilt shoe
      have hlen : (Shoe.init shuffle sh.decks).cards.length = d * 52 := by
        rw [hdecks]; exact hinit_len d
      rcases List.eq_nil_or_concat (Shoe.init shuffle sh.decks).cards
        with hnil' | ⟨l₂, b, hcat₂⟩
      · rw [hnil'] at hlen
        simp at hlen
        omega
      · rw [List.concat_eq_append] at hcat₂
        have hdeal : Shoe.deal shuffle sh =
            some (b, { decks := sh.decks, cards := l₂ }) := by
          rw [Shoe.deal]
          simp only [hnil, List.isEmpty_nil, if_true, hcat₂, popLast_concat,
            Shoe.init_decks]
        refine ⟨⟨b, _, hdeal⟩, ?_⟩
        intro c sh' hc
        rw [hdeal] at hc
        injection hc with hc
        have hfst : b = c := congrArg Prod.fst hc
        have hsnd : ({ decks := sh.decks, cards := l₂ } : Shoe) = sh' :=
          congrArg Prod.snd hc
        subst hfst
        subst hsnd
        refine ⟨hdecks, fun h => absurd hnil h, fun _ => ⟨?_, ?_⟩⟩
        · have h52 : l₂.length + 1 = d * 52 := by
            rw [hcat₂] at hlen
            simpa using hlen
          simpa using by omega
        · rw [Shoe.init_cards, hdecks] at hcat₂
          simpa using hcat₂
    · -- non-empty shoe: pop the last card
      rw [List.concat_eq_append] at hcat
      have hdeal := shoe_deal_concat shuffle sh l' a hcat
      refine ⟨⟨a, _, hdeal⟩, ?_⟩
      intro c sh' hc
      rw [hdeal] at hc
      injection hc with hc
      have hfst : a = c := congrArg Prod.fst hc
      have hsnd : ({ decks := sh.decks, cards := l' } : Shoe) = sh' :=
        congrArg Prod.snd hc
      subst hfst
      subst hsnd
      refine ⟨hdecks, fun _ => hcat, fun h => ?_⟩
      rw [h] at hcat
      exact absurd hcat.symm (by simp)

/-- Witness for C9: the identity shuffle, one deck, an empty shoe. -/
theorem shoe_deal_spec_witness :
    ∃ c sh', Shoe.deal id { decks := 1, cards := [] } = some (c, sh') :=
  (shoe_deal_spec id (fun l => List.Perm.refl l) 1 (by decide)
    { decks := 1, cards := [] } rfl).2.1

-- ───────── Hand & session state ─────────

/-- Source dataclass `Hand`: player hand state including main bet and side bets. -/
structure Hand where
  cards : List Card := []
  bet : Nat := 0
  doubled : Bool := false
  stood : Bool := false
  done : Bool := false
  split_aces : Bool := false
  pp_bet : Nat := 0
  t213_bet : Nat := 0
deriving Repr, DecidableEq

/-- Round phase: `"idle" | "player" | "dealer" | "settle"`. -/
inductive Phase where
  | idle | player | dealer | settle
deriving Repr, DecidableEq

/-- Settlement result strings `"win" | "lose" | "push"`. -/
inductive RoundResult where
  | win | lose | push
deriving Repr, DecidableEq

/-- Main stats counters `{"played","won","lost","push"}`. -/
structure Stats where
  played : Nat := 0
  won : Nat := 0
  lost : Nat := 0
  push : Nat := 0
deriving Repr, DecidableEq

/-- Perfect Pairs classification. -/
inductive PPKind where
  | perfect | colored | mixed
deriving Repr, DecidableEq

/-- Classification of a winning 21+3 trio. -/
inductive T213Kind where
  | straight_flush | three_kind | straight | flush
deriving Repr, DecidableEq

/-- Per-kind win counters of the Perfect Pairs side bet. -/
structure PPWins where
  perfect : Nat := 0
  colored : Nat := 0
  mixed : Nat := 0
deriving Repr, DecidableEq

/-- Per-kind win counters of the 21+3 side bet. -/
structure T213Wins where
  straight_flush : Nat := 0
  three_kind : Nat := 0
  straight : Nat := 0
  flush : Nat := 0
deriving Repr, DecidableEq

/-- Side-bet ledger `side_stats["pp"]`. -/
structure PPStat where
  bets : Nat := 0
  stake : Nat := 0
  payout_return : Nat := 0
  wins : PPWins := {}
deriving Repr, DecidableEq

/-- Side-bet ledger `side_stats["t213"]`. -/
structure T213Stat where
  bets : Nat := 0
  stake : Nat := 0
  payout_return : Nat := 0
  wins : T213Wins := {}
deriving Repr, DecidableEq

/-- One entry of `last_outcomes` (current round only). -/
structure Outcome where
  result : RoundResult
  pv : Nat
  dv : Nat
  payout : Nat
deriving Repr, DecidableEq

/-- One record of the persistent `history` list (the wall-clock timestamp and
the card-string formatting are presentation-only and omitted; the card lists
themselves are kept). -/
structure HistRecord where
  result : RoundResult
  player_value : Nat
  dealer_value : Nat
  bet : Nat
  payout : Nat
  net : Int
  player_cards : List Card
  dealer_cards : List Card
deriving Repr, DecidableEq

/-- Engine-relevant `st.session_state` fields from `init_state` (flash
messages, chip animation and welcome flag are presentation-only). -/
structure GameState where
  shoe : Shoe
  bankroll : Option Nat
  in_hand : Bool
  phase : Phase
  hands : List Hand
  cur : Nat
  dealer : List Card
  split_limit : Nat
  split_happened : Bool
  offered_insurance : Bool
  insurance : Nat
  insurance_active : Bool
  peek_done : Bool
  even_money_offered : Bool
  even_money_decided : Bool
  stats : Stats
  pp_stats : PPStat
  t213_stats : T213Stat
  last_outcomes : List Outcome
  history : List HistRecord
deriving Repr, DecidableEq

/-- Bankroll credit `st.session_state.bankroll += p` (no-op on a `None`
bankroll, which in-round code never sees). -/
def bankAdd (st : GameState) (p : Nat) : GameState :=
  { st with bankroll := st.bankroll.map (· + p) }

-- ───────── Side-bet helpers ─────────

/-- Source table `PP_PAYOUTS`. -/
def PP_PAYOUTS : PPKind → Nat
  | .perfect => 25
  | .colored => 12
  | .mixed => 6

/-- Source table `T213_PAYOUTS`. -/
def T213_PAYOUTS : T213Kind → Nat
  | .straight_flush => 40
  | .three_kind => 30
  | .straight => 10
  | .flush => 5

/-- Source `pp_kind(c1, c2)`: classify Perfect Pairs for two player cards. -/
def pp_kind (c1 c2 : Card) : Option PPKind :=
  if c1.1 ≠ c2.1 then none
  else if c1.2 = c2.2 then some .perfect
  else if (isRed c1.2 && isRed c2.2) || (!isRed c1.2 && !isRed c2.2) then some .colored
  else some .mixed

/-- Source `is_flush`: one distinct suit (`len({s for _,s in cards}) == 1`). -/
def is_flush (cards : List Card) : Bool :=
  (cards.map (fun c => c.2)).dedup.length = 1

/-- Source `is_trips`: one distinct rank. -/
def is_trips (cards : List Card) : Bool :=
  (cards.map (fun c => c.1)).dedup.length = 1

/-- Python `sorted` on naturals. -/
def sortNat (l : List Nat) : List Nat := List.insertionSort (· ≤ ·) l

/-- Inner `consec(a)`: `a[0]+1==a[1] and a[1]+1==a[2]` on a 3-element list. -/
def consec (a : List Nat) : Bool :=
  match a with
  | [x, y, z] => x + 1 = y ∧ y + 1 = z
  | _ => false

/-- Source `is_straight3(cards)`: 3-card straight, Ace high or (every Ace) low. -/
def is_straight3 (cards : List Card) : Bool :=
  let vals := sortNat (cards.map (fun c => RANK_ORDER c.1))
  if consec vals then true
  else consec (sortNat (vals.map (fun v => if v = 14 then 1 else v)))

/-- Source `eval_21p3(p_cards, dealer_up)`: classify the trio of the player's
first two cards and the dealer upcard, in source priority order.  Python
would crash on fewer than two player cards (`none` here). -/
def eval_21p3 (p_cards : List Card) (dealer_up : Card) : Option T213Kind :=
  match p_cards[0]?, p_cards[1]? with
  | some c0, some c1 =>
      let trio := [c0, c1, dealer_up]
      if is_flush trio && is_straight3 trio then some .straight_flush
      else if is_trips trio then some .three_kind
      else if is_straight3 trio then some .straight
      else if is_flush trio then some .flush
      else none
  | _, _ => none

-- ───────── Round flow ─────────

/-- Blackjack 3:2 payout `int(round(bet * 2.5))`.  For integer-cent bets,
`bet * 2.5` is an exact binary float, so Python's `round` is exactly
round-half-to-even on the rational `5 * bet / 2`. -/
def bjPay (bet : Nat) : Nat :=
  let n := 5 * bet
  if n % 2 = 0 then n / 2
  else if (n / 2) % 2 = 0 then n / 2 else n / 2 + 1

/-- Source `log_history`: append one settled hand to the persistent history.
`net = payout - bet` on a win, `0` on a push, `-bet` on a loss. -/
def log_history (st : GameState) (result : RoundResult) (h : Hand) (payout : Nat)
    (player_val dealer_val : Nat) : GameState :=
  let net : Int :=
    match result with
    | .win => (payout : Int) - (h.bet : Int)
    | .push => 0
    | .lose => -(h.bet : Int)
  { st with history := st.history ++ [{
      result := result, player_value := player_val, dealer_value := dealer_val,
      bet := h.bet, payout := payout, net := net,
      player_cards := h.cards, dealer_cards := st.dealer }] }

/-- Source `settle(h)`: settle one player hand against the final dealer hand,
pay the bankroll, bump one stats counter, record the outcome and the history
entry (chip animation and flash messages omitted). -/
def settle (h : Hand) (st : GameState) : GameState :=
  let pv := hand_value h.cards
  let dv := hand_value st.dealer
  if 21 < pv then
    let st1 := { st with stats := { st.stats with lost := st.stats.lost + 1 },
                         last_outcomes := st.last_outcomes ++ [⟨.lose, pv, dv, 0⟩] }
    log_history st1 .lose h 0 pv dv
  else if is_blackjack h.cards && !st.split_happened then
    let pay := bjPay h.bet
    let st1 := bankAdd st pay
    let st2 := { st1 with stats := { st1.stats with won := st1.stats.won + 1 },
                          last_outcomes := st1.last_outcomes ++ [⟨.win, pv, dv, pay⟩] }
    log_history st2 .win h pay pv dv
  else if 21 < dv then
    let pay := h.bet * 2
    let st1 := bankAdd st pay
    let st2 := { st1 with stats := { st1.stats with won := st1.stats.won + 1 },
                          last_outcomes := st1.last_outcomes ++ [⟨.win, pv, dv, pay⟩] }
    log_history st2 .win h pay pv dv
  else if dv < pv then
    let pay := h.bet * 2
    let st1 := bankAdd st pay
    let st2 := { st1 with stats := { st1.stats with won := st1.stats.won + 1 },
                          last_outcomes := st1.last_outcomes ++ [⟨.win, pv, dv, pay⟩] }
    log_history st2 .win h pay pv dv
  else if pv = dv then
    let pay := h.bet
    let st1 := bankAdd st pay
    let st2 := { st1 with stats := { st1.stats with push := st1.stats.push + 1 },
                          last_outcomes := st1.last_outcomes ++ [⟨.push, pv, dv, pay⟩] }
    log_history st2 .push h pay pv dv
  else
    let st1 := { st with stats := { st.stats with lost := st.stats.lost + 1 },
                         last_outcomes := st.last_outcomes ++ [⟨.lose, pv, dv, 0⟩] }
    log_history st1 .lose h 0 pv dv

/-- Source `resolve_dealer_blackjack`: pay insurance 2:1 (3× stake returned),
then push the single hand if the player also has blackjack, else lose it. -/
def resolve_dealer_blackjack (st : GameState) : GameState :=
  let st0 := if 0 < st.insurance then bankAdd st (st.insurance * 3) else st
  match st0.hands[0]? with
  | none => st0
  | some h =>
      let pv := hand_value h.cards
      let dv := hand_value st0.dealer
      if is_blackjack h.cards then
        let st1 := bankAdd st0 h.bet
        let st2 := { st1 with stats := { st1.stats with push := st1.stats.push + 1 } }
        log_history st2 .push h h.bet pv dv
      else
        let st1 := { st0 with stats := { st0.stats with lost := st0.stats.lost + 1 } }
        log_history st1 .lose h 0 pv dv

/-- Source `end_round`: close the round and reset in-hand flags. -/
def end_round (st : GameState) : GameState :=
  { st with in_hand := false,
            stats := { st.stats with played := st.stats.played + 1 },
            insurance_active := false }

/-- Source `next_or_dealer`: advance to the first playable hand, else to the
dealer phase. -/
def next_or_dealer (st : GameState) : GameState :=
  match st.hands.findIdx?
      (fun h => !h.done && !h.stood && decide (hand_value h.cards ≤ 21)) with
  | some i => { st with cur := i, phase := .player }
  | none => { st with phase := .dealer }

-- ───────── Player actions ─────────

/-- Source `act_hit`: deal one card to the current hand unless it is
done/stood/split-aces; on 21 or more mark it done (stood exactly on 21)
and advance. -/
def act_hit (shuffle : List Card → List Card) (st : GameState) : GameState :=
  match st.hands[st.cur]? with
  | none => st
  | some h =>
      if h.done || h.stood || h.split_aces then st
      else
        match Shoe.deal shuffle st.shoe with
        | none => st
        | some (c, sh') =>
            let cards' := h.cards ++ [c]
            let v := hand_value cards'
            let h' :=
              if 21 ≤ v then
                { h with cards := cards', done := true, stood := decide (v = 21) }
              else { h with cards := cards' }
            let st1 := { st with shoe := sh', hands := st.hands.set st.cur h' }
            if 21 ≤ v then next_or_dealer st1 else st1

/-- Source `act_stand`: mark the current hand stood and done, then advance.
The source performs no precondition check here. -/
def act_stand (st : GameState) : GameState :=
  match st.hands[st.cur]? with
  | none => st
  | some h =>
      next_or_dealer
        { st with hands := st.hands.set st.cur { h with stood := true, done := true } }

/-- Source `act_double`: double the bet, take one card, auto-stand; only with
exactly two cards totalling 9–11, no prior double/stand/done/split-aces, and
bankroll at least the bet. -/
def act_double (shuffle : List Card → List Card) (st : GameState) : GameState :=
  match st.hands[st.cur]? with
  | none => st
  | some h =>
      let v := hand_value h.cards
      if h.cards.length = 2 ∧ 9 ≤ v ∧ v ≤ 11 ∧ h.doubled = false ∧ h.stood = false
          ∧ h.done = false ∧ h.split_aces = false then
        match st.bankroll with
        | none => st
        | some b =>
            if b < h.bet then st
            else
              match Shoe.deal shuffle st.shoe with
              | none => st
              | some (c, sh') =>
                  let h' := { h with bet := h.bet * 2, doubled := true,
                                     cards := h.cards ++ [c], done := true }
                  next_or_dealer
                    { st with bankroll := some (b - h.bet), shoe := sh',
                              hands := st.hands.set st.cur h' }
      else st

/-- Source `can_split(h)`: exactly two cards of equal rank, hand neither done
nor stood, and fewer hands than the split limit. -/
def can_split (st : GameState) (h : Hand) : Bool :=
  match h.cards with
  | [c1, c2] =>
      if h.done || h.stood then false
      else if c1.1 ≠ c2.1 then false
      else decide (st.hands.length < st.split_limit)
  | _ => false

/-- Source `act_split`: fund a second equal-bet hand from the bankroll, keep
the first card in each hand, deal one fresh card to each, and for split aces
mark both hands stood and done. -/
def act_split (shuffle : List Card → List Card) (st : GameState) : GameState :=
  match st.hands[st.cur]? with
  | none => st
  | some h =>
      if !can_split st h then st
      else
        match st.bankroll with
        | none => st
        | some b =>
            if b < h.bet then st
            else
              match h.cards with
              | [c1, c2] =>
                  let isA := c1.1 = ace && c2.1 = ace
                  match Shoe.deal shuffle st.shoe with
                  | none => st
                  | some (d1, sh1) =>
                      match Shoe.deal shuffle sh1 with
                      | none => st
                      | some (d2, sh2) =>
                          let h' := { h with cards := [c1, d1], split_aces := isA,
                                             stood := isA, done := isA }
                          let new_hand : Hand :=
                            { cards := [c2, d2], bet := h.bet, split_aces := isA,
                              stood := isA, done := isA }
                          next_or_dealer
                            { st with bankroll := some (b - h.bet), shoe := sh2,
                                      hands := (st.hands.set st.cur h').insertIdx
                                        (st.cur + 1) new_hand,
                                      split_happened := true }
              | _ => st

/-- Source `take_insurance`: take the half-bet insurance when none is taken
yet, the half-bet is positive, and the bankroll covers it. -/
def take_insurance (st : GameState) : GameState :=
  if 0 < st.insurance then st
  else
    match st.hands[0]? with
    | none => st
    | some h =>
        let max_ins := h.bet / 2
        if max_ins = 0 then st
        else
          match st.bankroll with
          | none => st
          | some b =>
              if b < max_ins then st
              else { st with bankroll := some (b - max_ins), insurance := max_ins,
                             insurance_active := true }

-- ───────── Side-bet evaluation, dealer play, start of round ─────────

/-- Bump the Perfect Pairs per-kind win counter. -/
def PPWins.inc (w : PPWins) : PPKind → PPWins
  | .perfect => { w with perfect := w.perfect + 1 }
  | .colored => { w with colored := w.colored + 1 }
  | .mixed => { w with mixed := w.mixed + 1 }

/-- Bump the 21+3 per-kind win counter. -/
def T213Wins.inc (w : T213Wins) : T213Kind → T213Wins
  | .straight_flush => { w with straight_flush := w.straight_flush + 1 }
  | .three_kind => { w with three_kind := w.three_kind + 1 }
  | .straight => { w with straight := w.straight + 1 }
  | .flush => { w with flush := w.flush + 1 }

/-- Source `evaluate_sidebets`: right after the initial deal, pay Perfect
Pairs on the player's two cards and 21+3 on those plus the dealer upcard. -/
def evaluate_sidebets (st : GameState) : GameState :=
  match st.hands[0]?, st.dealer[0]? with
  | some h, some up =>
      let st1 :=
        if 0 < h.pp_bet then
          match h.cards[0]?, h.cards[1]? with
          | some c0, some c1 =>
              match pp_kind c0 c1 with
              | some kind =>
                  let gain := h.pp_bet * (PP_PAYOUTS kind + 1)
                  let sta := bankAdd st gain
                  { sta with pp_stats :=
                      { sta.pp_stats with
                        payout_return := sta.pp_stats.payout_return + gain,
                        wins := sta.pp_stats.wins.inc kind } }
              | none => st
          | _, _ => st
        else st
      if 0 < h.t213_bet then
        match eval_21p3 h.cards up with
        | some res =>
            let gain := h.t213_bet * (T213_PAYOUTS res + 1)
            let stb := bankAdd st1 gain
            { stb with t213_stats :=
                { stb.t213_stats with
                  payout_return := stb.t213_stats.payout_return + gain,
                  wins := stb.t213_stats.wins.inc res } }
        | none => st1
      else st1
  | _, _ => st

lemma hardTotal_append (l1 l2 : List Card) :
    hardTotal (l1 ++ l2) = hardTotal l1 + hardTotal l2 := by
  simp [hardTotal]

lemma hardTotal_le_hand_value (cards : List Card) :
    hardTotal cards ≤ hand_value cards := by
  rw [hand_value_eq, baseTotal_eq]
  split_ifs <;> omega

/-- Source `dealer_play`: dealer hits while under 17 (stands on any 17,
soft or hard).  Terminates because every card has hard value at least 1. -/
def dealer_play (shuffle : List Card → List Card) (st : GameState) : GameState :=
  if hday : hand_value st.dealer < 17 then
    match Shoe.deal shuffle st.shoe with
    | none => st
    | some (c, sh') =>
        dealer_play shuffle { st with dealer := st.dealer ++ [c], shoe := sh' }
  else st
termination_by 17 - hardTotal st.dealer
decreasing_by
  simp only [hardTotal_append]
  have h1 := hardTotal_le_hand_value st.dealer
  have h2 : hardTotal [c] = hardValue c.1 := by simp [hardTotal]
  have h3 := hardValue_pos c.1
  omega

/-- Source `start_round(main, pp, t213)`: reject when the bankroll does not
cover the total stake; otherwise deduct it, record side-bet stakes, reset the
round state, deal player/up/player/hole, evaluate side bets, then handle an
immediate player natural blackjack (instant 3:2 payout unless the dealer
shows an Ace or ten-value; Ace offers even money; ten-value peeks).  A `none`
from a mid-deal `Shoe.deal` (possible only for a 0-deck shoe, where Python
would raise) leaves the state as already accumulated. -/
def start_round (shuffle : List Card → List Card) (main pp t213 : Nat)
    (st : GameState) : GameState :=
  let total := main + pp + t213
  match st.bankroll with
  | none => st
  | some b =>
      if b < total then st
      else
        let hand0 : Hand := { cards := [], bet := main, pp_bet := pp, t213_bet := t213 }
        let st1 := { st with bankroll := some (b - total) }
        let st2 :=
          if 0 < pp then
            { st1 with pp_stats := { st1.pp_stats with
                bets := st1.pp_stats.bets + 1, stake := st1.pp_stats.stake + pp } }
          else st1
        let st3 :=
          if 0 < t213 then
            { st2 with t213_stats := { st2.t213_stats with
                bets := st2.t213_stats.bets + 1, stake := st2.t213_stats.stake + t213 } }
          else st2
        let st4 := { st3 with
          hands := [hand0], cur := 0, dealer := [], in_hand := true,
          phase := .player, split_happened := false, offered_insurance := false,
          insurance := 0, insurance_active := false, peek_done := false,
          even_money_offered := false, even_money_decided := false,
          last_outcomes := [] }
        match Shoe.deal shuffle st4.shoe with
        | none => st4
        | some (p1, s1) =>
        match Shoe.deal shuffle s1 with
        | none => { st4 with shoe := s1, hands := [{ hand0 with cards := [p1] }] }
        | some (up, s2) =>
        match Shoe.deal shuffle s2 with
        | none => { st4 with shoe := s2, hands := [{ hand0 with cards := [p1] }],
                             dealer := [up] }
        | some (p2, s3) =>
        match Shoe.deal shuffle s3 with
        | none => { st4 with shoe := s3,
                             hands := [{ hand0 with cards := [p1, p2] }],
                             dealer := [up] }
        | some (hole, s4) =>
        let st5 := { st4 with shoe := s4,
                              hands := [{ hand0 with cards := [p1, p2] }],
                              dealer := [up, hole] }
        let st6 := evaluate_sidebets st5
        if is_blackjack [p1, p2] then
          if up.1 = ace ∨ up.1 = ten ∨ up.1 = jack ∨ up.1 = queen ∨ up.1 = king then
            if up.1 = ace then
              { st6 with offered_insurance := true, even_money_offered := true,
                         even_money_decided := false }
            else
              let st7 := { st6 with peek_done := true }
              if is_blackjack st7.dealer then
                let st8 := end_round (resolve_dealer_blackjack st7)
                { st8 with phase := .idle }
              else st7
          else
            let pay := bjPay main
            let st7 := bankAdd st6 pay
            let st8 := { st7 with stats := { st7.stats with won := st7.stats.won + 1 } }
            let st9 := log_history st8 .win { hand0 with cards := [p1, p2] } pay
                (hand_value [p1, p2]) (hand_value st8.dealer)
            let st10 := end_round st9
            { st10 with phase := .idle }
        else st6

-- ───────── C10: insurance ─────────

/-- C10: `take_insurance` offers no choice of stake: when available (none
taken yet, `⌊bet/2⌋ > 0`, bankroll covers it) it deducts and records exactly
`⌊bet/2⌋`; otherwise it is a no-op; repeated calls are idempotent and the
recorded stake never exceeds `⌊bet/2⌋`. -/
theorem take_insurance_spec (st : GameState) :
    (∀ h b, st.hands[0]? = some h → st.bankroll = some b →
        st.insurance = 0 → 0 < h.bet / 2 → h.bet / 2 ≤ b →
        take_insurance st =
          { st with bankroll := some (b - h.bet / 2), insurance := h.bet / 2,
                    insurance_active := true })
    ∧ (∀ h, st.hands[0]? = some h →
        (h.bet / 2 = 0 ∨ (∃ b, st.bankroll = some b ∧ b < h.bet / 2) ∨
          0 < st.insurance) →
        take_insurance st = st)
    ∧ take_insurance (take_insurance st) = take_insurance st
    ∧ (∀ h, st.hands[0]? = some h →
        (take_insurance st).insurance = st.insurance ∨
          (take_insurance st).insurance = h.bet / 2) := by
  refine ⟨?_, ?_, ?_, ?_⟩
  · intro h b hh hb hzero hpos hle
    simp [take_insurance, hh, hb, hzero, Nat.pos_iff_ne_zero.mp hpos,
      Nat.not_lt.mpr hle]
  · intro h hh hcase
    rcases hcase with h0 | ⟨b, hb, hlt⟩ | hins
    · by_cases hi : 0 < st.insurance
      · simp [take_insurance, hi]
      · simp [take_insurance, hi, hh, h0]
    · by_cases hi : 0 < st.insurance
      · simp [take_insurance, hi]
      · by_cases h0 : h.bet / 2 = 0
        · simp [take_insurance, hi, hh, h0]
        · simp [take_insurance, hi, hh, h0, hb, hlt]
    · simp [take_insurance, hins]
  · by_cases hi : 0 < st.insurance
    · have hT : take_insurance st = st := by simp [take_insurance, hi]
      rw [hT, hT]
    · cases hh : st.hands[0]? with
      | none =>
          have hT : take_insurance st = st := by simp [take_insurance, hi, hh]
          rw [hT, hT]
      | some h =>
          by_cases h0 : h.bet / 2 = 0
          · have hT : take_insurance st = st := by simp [take_insurance, hi, hh, h0]
            rw [hT, hT]
          · cases hb : st.bankroll with
            | none =>
                have hT : take_insurance st = st := by
                  simp [take_insurance, hi, hh, h0, hb]
                rw [hT, hT]
            | some b =>
                by_cases hlt : b < h.bet / 2
                · have hT : take_insurance st = st := by
                    simp [take_insurance, hi, hh, h0, hb, hlt]
                  rw [hT, hT]
                · have hT : take_insurance st =
                      { st with bankroll := some (b - h.bet / 2),
                                insurance := h.bet / 2,
                                insurance_active := true } := by
                    simp [take_insurance, hi, hh, h0, hb, hlt]
                  rw [hT]
                  simp [take_insurance, Nat.pos_iff_ne_zero.mpr h0]
  · intro h hh
    by_cases hi : 0 < st.insurance
    · left
      simp [take_insurance, hi]
    · by_cases h0 : h.bet / 2 = 0
      · left
        simp [take_insurance, hi, hh, h0]
      · cases hb : st.bankroll with
        | none =>
            left
            simp [take_insurance, hi, hh, h0, hb]
        | some b =>
            by_cases hlt : b < h.bet / 2
            · left
              simp [take_insurance, hi, hh, h0, hb, hlt]
            · right
              simp [take_insurance, hi, hh, h0, hb, hlt]

/-- A convenience idle state used by concrete witnesses/counterexamples. -/
def baseState : GameState :=
  { shoe := { decks := 6, cards := [] }, bankroll := some 10000,
    in_hand := false, phase := .idle, hands := [], cur := 0, dealer := [],
    split_limit := 4, split_happened := false, offered_insurance := false,
    insurance := 0, insurance_active := false, peek_done := false,
    even_money_offered := false, even_money_decided := false, stats := {},
    pp_stats := {}, t213_stats := {}, last_outcomes := [], history := [] }

/-- Witness for C10: a $10 main bet, $100 bankroll, no insurance yet. -/
theorem take_insurance_spec_witness :
    take_insurance
      { baseState with in_hand := true, phase := .player,
                       hands := [{ cards := [(ace, spades), (nine, hearts)],
                                   bet := 1000 }],
                       dealer := [(ace, clubs), (five, diamonds)],
                       offered_insurance := true } =
      { baseState with in_hand := true, phase := .player,
                       hands := [{ cards := [(ace, spades), (nine, hearts)],
                                   bet := 1000 }],
                       dealer := [(ace, clubs), (five, diamonds)],
                       offered_insurance := true,
                       bankroll := some 9500, insurance := 500,
                       insurance_active := true } := by
  have h := (take_insurance_spec
    { baseState with in_hand := true, phase := .player,
                     hands := [{ cards := [(ace, spades), (nine, hearts)],
                                 bet := 1000 }],
                     dealer := [(ace, clubs), (five, diamonds)],
                     offered_insurance := true }).1
    { cards := [(ace, spades), (nine, hearts)], bet := 1000 } 10000
    rfl rfl rfl (by decide) (by decide)
  simpa [baseState] using h

-- ───────── C8: insufficient funds at start_round ─────────

/-- C8: `start_round` with a total stake exceeding the bankroll — or before
any deposit — is rejected atomically: the whole state is unchanged and no
round or hands are created. -/
theorem start_round_insufficient (shuffle : List Card → List Card)
    (main pp t213 : Nat) (st : GameState)
    (hc : st.bankroll = none ∨ ∃ b, st.bankroll = some b ∧ b < main + pp + t213) :
    start_round shuffle main pp t213 st = st := by
  rcases hc with hb | ⟨b, hb, hlt⟩
  · simp [start_round, hb]
  · simp [start_round, hb, hlt]

/-- Witness for C8: bankroll $5, attempted main bet $10. -/
theorem start_round_insufficient_witness :
    start_round id 1000 0 0 { baseState with bankroll := some 500 } =
      { baseState with bankroll := some 500 } :=
  start_round_insufficient id 1000 0 0 { baseState with bankroll := some 500 }
    (Or.inr ⟨500, rfl, by decide⟩)

-- ───────── C2: dealer drawing policy ─────────

/-- Deal success on a shoe with at least one deck (used by the dealer-play
analysis): the dealt-to shoe keeps its deck count. -/
lemma Shoe.deal_some (shuffle : List Card → List Card)
    (hlen : ∀ l, (shuffle l).length = l.length) (sh : Shoe) (hd : 1 ≤ sh.decks) :
    ∃ c sh', Shoe.deal shuffle sh = some (c, sh') ∧ sh'.decks = sh.decks := by
  rcases List.eq_nil_or_concat sh.cards with hnil | ⟨l', a, hcat⟩
  · have hlen52 : (Shoe.init shuffle sh.decks).cards.length = sh.decks * 52 := by
      rw [Shoe.init_cards, hlen, freshCards_length]
    rcases List.eq_nil_or_concat (Shoe.init shuffle sh.decks).cards
      with hnil' | ⟨l₂, b, hcat₂⟩
    · rw [hnil'] at hlen52
      simp at hlen52
      omega
    · rw [List.concat_eq_append] at hcat₂
      refine ⟨b, { decks := sh.decks, cards := l₂ }, ?_, rfl⟩
      rw [Shoe.deal]
      simp only [hnil, List.isEmpty_nil, if_true, hcat₂, popLast_concat,
        Shoe.init_decks]
  · rw [List.concat_eq_append] at hcat
    exact ⟨a, { decks := sh.decks, cards := l' }, shoe_deal_concat shuffle sh l' a hcat, rfl⟩

/-- The dealer loop never removes dealer cards. -/
lemma dealer_play_dealer_mono (shuffle : List Card → List Card) :
    ∀ n st, 17 - hardTotal st.dealer ≤ n →
      st.dealer.length ≤ (dealer_play shuffle st).dealer.length := by
  intro n
  induction n with
  | zero =>
      intro st hst
      have h1 := hardTotal_le_hand_value st.dealer
      rw [dealer_play.eq_def, dif_neg (by omega)]
  | succ n ih =>
      intro st hst
      rw [dealer_play.eq_def]
      by_cases hv : hand_value st.dealer < 17
      · rw [dif_pos hv]
        cases hdeal : Shoe.deal shuffle st.shoe with
        | none => exact le_refl _
        | some csh =>
            obtain ⟨c, sh'⟩ := csh
            have h1 := hardTotal_le_hand_value st.dealer
            have hrec := ih { st with dealer := st.dealer ++ [c], shoe := sh' } (by
              simp only [hardTotal_append]
              have h2 : hardTotal [c] = hardValue c.1 := by simp [hardTotal]
              have h3 := hardValue_pos c.1
              omega)
            calc st.dealer.length ≤ (st.dealer ++ [c]).length := by simp
              _ ≤ _ := hrec
      · rw [dif_neg hv]

/-- Corrected C2: with any 17 — soft or hard — the dealer draws no card
(stand-on-soft-17); strictly below 17 the dealer draws at least one card. -/
theorem dealer_play_s17 (shuffle : List Card → List Card)
    (hlen : ∀ l, (shuffle l).length = l.length) (st : GameState) :
    (17 ≤ hand_value st.dealer → dealer_play shuffle st = st)
    ∧ (hand_value st.dealer < 17 → 1 ≤ st.shoe.decks →
        st.dealer.length < (dealer_play shuffle st).dealer.length) := by
  constructor
  · intro h17
    rw [dealer_play.eq_def, dif_neg (by omega)]
  · intro hv hd
    obtain ⟨c, sh', hdeal, _⟩ := Shoe.deal_some shuffle hlen st.shoe hd
    have heq : dealer_play shuffle st =
        dealer_play shuffle { st with dealer := st.dealer ++ [c], shoe := sh' } := by
      rw [dealer_play.eq_def, dif_pos hv, hdeal]
    rw [heq]
    have hmono := dealer_play_dealer_mono shuffle (17 - hardTotal (st.dealer ++ [c]))
      { st with dealer := st.dealer ++ [c], shoe := sh' } (le_refl _)
    have hmono' : (st.dealer ++ [c]).length ≤
        (dealer_play shuffle
          { st with dealer := st.dealer ++ [c], shoe := sh' }).dealer.length := hmono
    have hsucc : (st.dealer ++ [c]).length = st.dealer.length + 1 := by simp
    omega

/-- Witness for the corrected C2: the dealer stands on soft 17 (A,6). -/
theorem dealer_play_s17_witness :
    dealer_play id { baseState with dealer := [(ace, spades), (six, hearts)] } =
      { baseState with dealer := [(ace, spades), (six, hearts)] } :=
  (dealer_play_s17 id (fun _ => rfl)
    { baseState with dealer := [(ace, spades), (six, hearts)] }).1 (by decide)

/-- State refuting C2 as written: dealer holds A♠ 6♠, a soft 17. -/
def stSoft17 : GameState :=
  { baseState with in_hand := true, phase := .dealer,
                   dealer := [(ace, spades), (six, spades)],
                   shoe := { decks := 6, cards := [(two, clubs), (three, clubs)] } }

/-- Counterexample to C2 as written: on the soft 17 A♠ 6♠ (ace counted 11,
`baseTotal = 17`), `dealer_play` draws no card at all, contradicting
"a dealer hand that is a soft 17 receives at least one more card". -/
theorem dealer_play_soft17_draws_nothing :
    dealer_play id stSoft17 = stSoft17 ∧
      stSoft17.dealer = [(ace, spades), (six, spades)] ∧
      hand_value stSoft17.dealer = 17 ∧ baseTotal stSoft17.dealer = 17 := by
  refine ⟨?_, rfl, by decide, by decide⟩
  rw [dealer_play.eq_def, dif_neg (by decide)]

-- ───────── C4: invalid actions ─────────

/-- State with a single already-settled (done and stood) current hand. -/
def stDoneHand : GameState :=
  { baseState with in_hand := true, phase := .player,
                   hands := [{ cards := [(king, spades), (queen, hearts)],
                               bet := 1000, stood := true, done := true }],
                   cur := 0,
                   dealer := [(nine, clubs), (seven, diamonds)] }

/-- Counterexample to C4 as written: `act_stand` on a hand that is already
done and stood is not a no-op — it re-runs the advance logic, which flips
the phase from `player` to `dealer`. -/
theorem act_stand_done_hand_mutates :
    stDoneHand.phase = Phase.player ∧
      (∃ h, stDoneHand.hands[stDoneHand.cur]? = some h ∧ h.done = true ∧
        h.stood = true) ∧
      (act_stand stDoneHand).phase = Phase.dealer ∧
      act_stand stDoneHand ≠ stDoneHand := by
  refine ⟨rfl, ⟨_, rfl, rfl, rfl⟩, by decide, by decide⟩

/-- Corrected C4: `act_hit`, `act_double` and `act_split` do enforce their
hand-state and funds preconditions and are silent no-ops when those fail,
but none of the four actions consults the phase, and `act_stand` checks
nothing at all (see the counterexample). -/
theorem invalid_actions_noop (shuffle : List Card → List Card) (st : GameState) :
    (∀ h, st.hands[st.cur]? = some h →
        (h.done = true ∨ h.stood = true ∨ h.split_aces = true) →
        act_hit shuffle st = st)
    ∧ (∀ h, st.hands[st.cur]? = some h →
        ¬(h.cards.length = 2 ∧ 9 ≤ hand_value h.cards ∧ hand_value h.cards ≤ 11 ∧
          h.doubled = false ∧ h.stood = false ∧ h.done = false ∧
          h.split_aces = false) →
        act_double shuffle st = st)
    ∧ (∀ h b, st.hands[st.cur]? = some h → st.bankroll = some b → b < h.bet →
        act_double shuffle st = st)
    ∧ (∀ h, st.hands[st.cur]? = some h → can_split st h = false →
        act_split shuffle st = st)
    ∧ (∀ h b, st.hands[st.cur]? = some h → st.bankroll = some b → b < h.bet →
        act_split shuffle st = st) := by
  refine ⟨?_, ?_, ?_, ?_, ?_⟩
  · intro h hh hflag
    rcases hflag with hf | hf | hf <;> simp [act_hit, hh, hf]
  · intro h hh hnot
    simp only [act_hit, act_double, hh]
    rw [if_neg hnot]
  · intro h b hh hb hlt
    by_cases hok : h.cards.length = 2 ∧ 9 ≤ hand_value h.cards ∧
        hand_value h.cards ≤ 11 ∧ h.doubled = false ∧ h.stood = false ∧
        h.done = false ∧ h.split_aces = false
    · simp only [act_double, hh]
      rw [if_pos hok, hb]
      simp only
      rw [if_pos hlt]
    · simp only [act_double, hh]
      rw [if_neg hok]
  · intro h hh hcs
    simp [act_split, hh, hcs]
  · intro h b hh hb hlt
    by_cases hcs : can_split st h
    · simp only [act_split, hh, hcs, Bool.not_true, Bool.false_eq_true, if_false]
      rw [hb]
      simp only
      rw [if_pos hlt]
    · simp [act_split, hh, hcs]

/-- Witness for the corrected C4: hitting the done-and-stood hand is a no-op. -/
theorem invalid_actions_noop_witness :
    act_hit id stDoneHand = stDoneHand :=
  (invalid_actions_noop id stDoneHand).1
    { cards := [(king, spades), (queen, hearts)], bet := 1000,
      stood := true, done := true } rfl (Or.inl rfl)

-- ───────── C7: splitting aces ─────────

lemma next_or_dealer_bankroll (s : GameState) :
    (next_or_dealer s).bankroll = s.bankroll := by
  rw [next_or_dealer]
  cases s.hands.findIdx?
      (fun h => !h.done && !h.stood && decide (hand_value h.cards ≤ 21)) <;> rfl

lemma next_or_dealer_hands (s : GameState) :
    (next_or_dealer s).hands = s.hands := by
  rw [next_or_dealer]
  cases s.hands.findIdx?
      (fun h => !h.done && !h.stood && decide (hand_value h.cards ≤ 21)) <;> rfl

/-- Hitting a split-aces hand is always a silent no-op. -/
lemma act_hit_split_aces_noop (shuffle : List Card → List Card) (st : GameState)
    (h : Hand) (hh : st.hands[st.cur]? = some h) (hsa : h.split_aces = true) :
    act_hit shuffle st = st := by
  simp [act_hit, hh, hsa]

/-- C7: splitting a pair of aces deducts exactly the hand's bet, funds a
second equal-bet hand carrying no side bets, leaves each resulting hand with
exactly two cards (one original ace plus one freshly dealt card), marks both
hands stood and done, and any subsequent hit on a split-aces hand is a
no-op. -/
theorem act_split_aces_spec (shuffle : List Card → List Card) (st : GameState)
    (h : Hand) (b : Nat) (a1 a2 d1 d2 : Card) (rest : List Card)
    (hh : st.hands[st.cur]? = some h)
    (hcards : h.cards = [a1, a2]) (ha1 : a1.1 = ace) (ha2 : a2.1 = ace)
    (hdone : h.done = false) (hstood : h.stood = false)
    (hlim : st.hands.length < st.split_limit)
    (hb : st.bankroll = some b) (hbet : h.bet ≤ b)
    (hshoe : st.shoe.cards = rest ++ [d2, d1]) :
    (act_split shuffle st).bankroll = some (b - h.bet) ∧
    (act_split shuffle st).hands =
      (st.hands.set st.cur
        { h with cards := [a1, d1], split_aces := true, stood := true,
                 done := true }).insertIdx (st.cur + 1)
        { cards := [a2, d2], bet := h.bet, doubled := false, stood := true,
          done := true, split_aces := true, pp_bet := 0, t213_bet := 0 } ∧
    (∀ (shuffle2 : List Card → List Card) (st2 : GameState) (h2 : Hand),
        st2.hands[st2.cur]? = some h2 → h2.split_aces = true →
        act_hit shuffle2 st2 = st2) := by
  have hcs : can_split st h = true := by
    rw [can_split, hcards]
    simp [hdone, hstood, ha1, ha2, hlim]
  have hdeal1 : Shoe.deal shuffle st.shoe =
      some (d1, { decks := st.shoe.decks, cards := rest ++ [d2] }) := by
    apply shoe_deal_concat
    rw [hshoe]
    simp
  have hdeal2 : Shoe.deal shuffle { decks := st.shoe.decks, cards := rest ++ [d2] } =
      some (d2, { decks := st.shoe.decks, cards := rest }) :=
    shoe_deal_concat shuffle _ rest d2 rfl
  have hT : act_split shuffle st = next_or_dealer
      { st with bankroll := some (b - h.bet),
                shoe := { decks := st.shoe.decks, cards := rest },
                hands := (st.hands.set st.cur
                  { h with cards := [a1, d1], split_aces := true, stood := true,
                           done := true }).insertIdx (st.cur + 1)
                  { cards := [a2, d2], bet := h.bet, doubled := false,
                    stood := true, done := true, split_aces := true,
                    pp_bet := 0, t213_bet := 0 },
                split_happened := true } := by
    simp [act_split, hh, hcs, hb, Nat.not_lt.mpr hbet, hcards, hdeal1, hdeal2,
      ha1, ha2]
  refine ⟨?_, ?_, ?_⟩
  · rw [hT, next_or_dealer_bankroll]
  · rw [hT, next_or_dealer_hands]
  · intro shuffle2 st2 h2 hh2 hsa2
    exact act_hit_split_aces_noop shuffle2 st2 h2 hh2 hsa2

/-- Concrete pre-split state: A♠ A♥ with a $10 bet, $50 bankroll. -/
def stAces : GameState :=
  { baseState with in_hand := true, phase := .player, bankroll := some 5000,
                   hands := [{ cards := [(ace, spades), (ace, hearts)],
                               bet := 1000 }],
                   cur := 0, dealer := [(nine, clubs), (seven, diamonds)],
                   shoe := { decks := 6,
                             cards := [(two, clubs), (five, diamonds),
                                       (nine, spades)] } }

/-- Witness for C7 on `stAces`. -/
theorem act_split_aces_spec_witness :
    (act_split id stAces).bankroll = some 4000 ∧
    (act_split id stAces).hands =
      [{ cards := [(ace, spades), (nine, spades)], bet := 1000, doubled := false,
         stood := true, done := true, split_aces := true, pp_bet := 0,
         t213_bet := 0 },
       { cards := [(ace, hearts), (five, diamonds)], bet := 1000,
         doubled := false, stood := true, done := true, split_aces := true,
         pp_bet := 0, t213_bet := 0 }] := by
  have h := act_split_aces_spec id stAces
    { cards := [(ace, spades), (ace, hearts)], bet := 1000 } 5000
    (ace, spades) (ace, hearts) (nine, spades) (five, diamonds) [(two, clubs)]
    rfl rfl rfl rfl rfl rfl (by decide) rfl (by decide) rfl
  refine ⟨h.1, ?_⟩
  rw [h.2.1]
  rfl

-- ───────── C6: 21+3 side bet ─────────

lemma sortNat_eq_of_perm {l₁ l₂ : List Nat} (h : List.Perm l₁ l₂) :
    sortNat l₁ = sortNat l₂ := by
  have h1 : List.Sorted (· ≤ ·) (sortNat l₁) := List.sorted_insertionSort _ l₁
  have h2 : List.Sorted (· ≤ ·) (sortNat l₂) := List.sorted_insertionSort _ l₂
  exact List.eq_of_perm_of_sorted
    ((List.perm_insertionSort _ l₁).trans
      (h.trans (List.perm_insertionSort _ l₂).symm)) h1 h2

lemma dedup3_len_one {α : Type} [DecidableEq α] (a b c : α) :
    (([a, b, c] : List α).dedup.length = 1) ↔ (a = b ∧ b = c) := by
  by_cases h2 : b = c
  · subst h2
    by_cases h1 : a = b
    · subst h1
      rw [List.dedup_cons_of_mem (by simp), List.dedup_cons_of_mem (by simp)]
      simp
    · rw [List.dedup_cons_of_not_mem (by simp [h1]),
        List.dedup_cons_of_mem (by simp)]
      simp [h1]
  · have hbc : ([b, c] : List α).dedup = [b, c] := by
      rw [List.dedup_cons_of_not_mem (by simp [h2]),
        List.dedup_cons_of_not_mem (by simp), List.dedup_nil]
    by_cases hm : a ∈ ([b, c] : List α)
    · rw [List.dedup_cons_of_mem hm, hbc]
      simp [h2]
    · rw [List.dedup_cons_of_not_mem hm, hbc]
      simp [h2]

/-- Flush on a trio, as the claim words it: all three suits equal. -/
def flushSpec (t : List Card) : Bool :=
  match t with
  | [x, y, z] => x.2 = y.2 && y.2 = z.2
  | _ => false

/-- Three of a kind on a trio, as the claim words it: all three ranks equal. -/
def sameRankSpec (t : List Card) : Bool :=
  match t with
  | [x, y, z] => x.1 = y.1 && y.1 = z.1
  | _ => false

/-- Straight on a trio, as the claim words it: the sorted rank values are
consecutive under the Ace-high mapping (A = 14), or under the mapping that
sends every Ace to 1. -/
def straightSpec (t : List Card) : Bool :=
  consec (sortNat (t.map (fun c => RANK_ORDER c.1))) ||
  consec (sortNat (t.map (fun c => if c.1 = ace then 1 else RANK_ORDER c.1)))

/-- The 21+3 classification in the claim's priority order. -/
def classify21p3Spec (t : List Card) : Option T213Kind :=
  if flushSpec t && straightSpec t then some .straight_flush
  else if sameRankSpec t then some .three_kind
  else if straightSpec t then some .straight
  else if flushSpec t then some .flush
  else none

lemma is_flush_eq_flushSpec (x y z : Card) :
    is_flush [x, y, z] = flushSpec [x, y, z] := by
  rw [is_flush, flushSpec]
  simp only [List.map_cons, List.map_nil]
  rw [show (decide (x.2 = y.2) && decide (y.2 = z.2)) =
      decide (x.2 = y.2 ∧ y.2 = z.2) from (Bool.decide_and _ _).symm]
  exact decide_eq_decide.mpr (dedup3_len_one x.2 y.2 z.2)

lemma is_trips_eq_sameRankSpec (x y z : Card) :
    is_trips [x, y, z] = sameRankSpec [x, y, z] := by
  rw [is_trips, sameRankSpec]
  simp only [List.map_cons, List.map_nil]
  rw [show (decide (x.1 = y.1) && decide (y.1 = z.1)) =
      decide (x.1 = y.1 ∧ y.1 = z.1) from (Bool.decide_and _ _).symm]
  exact decide_eq_decide.mpr (dedup3_len_one x.1 y.1 z.1)

lemma rank_order_eq_fourteen (r : Rank) : RANK_ORDER r = 14 ↔ r = ace := by
  cases r <;> simp [RANK_ORDER]

lemma is_straight3_eq_straightSpec (t : List Card) :
    is_straight3 t = straightSpec t := by
  rw [is_straight3, straightSpec]
  by_cases hc : consec (sortNat (t.map (fun c => RANK_ORDER c.1))) = true
  · simp [hc]
  · simp only [Bool.not_eq_true] at hc
    simp only [hc, Bool.false_eq_true, if_false, Bool.false_or]
    congr 1
    apply sortNat_eq_of_perm
    have hperm : List.Perm (sortNat (t.map (fun c => RANK_ORDER c.1)))
        (t.map (fun c => RANK_ORDER c.1)) := List.perm_insertionSort _ _
    have hmap := hperm.map (fun v => if v = 14 then 1 else v)
    refine hmap.trans ?_
    rw [List.map_map]
    apply List.Perm.of_eq
    apply List.map_congr_left
    intro c _
    simp only [Function.comp]
    by_cases ha : c.1 = ace
    · simp [ha, RANK_ORDER]
    · rw [if_neg ha, if_neg fun hv => ha ((rank_order_eq_fourteen c.1).mp hv)]

lemma eval_21p3_eq_spec (c0 c1 up : Card) :
    eval_21p3 [c0, c1] up = classify21p3Spec [c0, c1, up] := by
  rw [eval_21p3, classify21p3Spec]
  simp only [List.getElem?_cons_zero, List.getElem?_cons_succ]
  rw [is_flush_eq_flushSpec, is_trips_eq_sameRankSpec, is_straight3_eq_straightSpec]

/-- C6: with a positive 21+3 stake `s`, the trio (player's first two cards
plus the dealer upcard) is classified by first match in the order
straight-flush, three-of-a-kind, straight, flush — straights read on the
sorted rank values under the Ace-high or the all-aces-low mapping — and a
winning classification adds `s × (multiplier + 1)` to the bankroll (nothing
otherwise). -/
theorem t213_payout_spec (st : GameState) (h : Hand) (up c0 c1 : Card)
    (s b : Nat) (hh : st.hands[0]? = some h) (hup : st.dealer[0]? = some up)
    (hpp : h.pp_bet = 0) (ht : h.t213_bet = s) (hs : 0 < s)
    (hb : st.bankroll = some b) (hc : h.cards = [c0, c1]) :
    eval_21p3 h.cards up = classify21p3Spec [c0, c1, up] ∧
    (evaluate_sidebets st).bankroll =
      some (b + (match classify21p3Spec [c0, c1, up] with
                 | some k => s * (T213_PAYOUTS k + 1)
                 | none => 0)) := by
  have heq : eval_21p3 h.cards up = classify21p3Spec [c0, c1, up] := by
    rw [hc]
    exact eval_21p3_eq_spec c0 c1 up
  refine ⟨heq, ?_⟩
  cases hcl : classify21p3Spec [c0, c1, up] with
  | none =>
      have : eval_21p3 h.cards up = none := heq.trans hcl
      simp [evaluate_sidebets, hh, hup, hpp, ht, hs, this, hb]
  | some k =>
      have : eval_21p3 h.cards up = some k := heq.trans hcl
      simp [evaluate_sidebets, hh, hup, hpp, ht, hs, this, hb, bankAdd]

/-- Concrete 21+3 state: 2♥ 3♥ for the player, 4♥ up, a $5 stake. -/
def stT213 : GameState :=
  { baseState with in_hand := true, phase := .player, bankroll := some 10000,
                   hands := [{ cards := [(two, hearts), (three, hearts)],
                               bet := 1000, t213_bet := 500 }],
                   cur := 0, dealer := [(four, hearts), (nine, spades)] }

/-- Witness for C6: a $5 straight-flush stake returns $205 into the bankroll. -/
theorem t213_payout_spec_witness :
    eval_21p3 [(two, hearts), (three, hearts)] (four, hearts) =
      some T213Kind.straight_flush ∧
    (evaluate_sidebets stT213).bankroll = some 30500 := by
  have h := t213_payout_spec stT213
    { cards := [(two, hearts), (three, hearts)], bet := 1000, t213_bet := 500 }
    (four, hearts) (two, hearts) (three, hearts) 500 10000
    rfl rfl rfl rfl (by decide) rfl rfl
  constructor
  · rw [show ([(two, hearts), (three, hearts)] : List Card) =
      ({ cards := [(two, hearts), (three, hearts)], bet := 1000,
         t213_bet := 500 } : Hand).cards from rfl]
    rw [h.1]
    rfl
  · rw [h.2]
    rfl

-- ───────── C1: settlement ─────────

/-- Settlement result and payout by the claim's case order: bust, natural
(no split this round), dealer bust, higher total, push, else lose. -/
def settleOutcomeSpec (pv dv bet : Nat) (natural noSplit : Bool) :
    RoundResult × Nat :=
  if 21 < pv then (.lose, 0)
  else if natural && noSplit then (.win, bjPay bet)
  else if 21 < dv then (.win, bet * 2)
  else if dv < pv then (.win, bet * 2)
  else if pv = dv then (.push, bet)
  else (.lose, 0)

/-- Net for the history record: `payout − bet` on a win, 0 on a push,
`−bet` on a loss. -/
def netFor (res : RoundResult) (payout bet : Nat) : Int :=
  match res with
  | .win => (payout : Int) - (bet : Int)
  | .push => 0
  | .lose => -(bet : Int)

/-- Exactly one of won/lost/push is incremented, matching the result. -/
def bumpStats (s : Stats) : RoundResult → Stats
  | .win => { s with won := s.won + 1 }
  | .lose => { s with lost := s.lost + 1 }
  | .push => { s with push := s.push + 1 }

/-- C1: `settle` pays and records by the first matching case of the claim's
order; it appends exactly one history record with the claim's net and bumps
exactly one of the won/lost/push counters. -/
theorem settle_spec (st : GameState) (h : Hand) (b : Nat)
    (hb : st.bankroll = some b) :
    (settle h st).bankroll =
      some (b + (settleOutcomeSpec (hand_value h.cards) (hand_value st.dealer)
        h.bet (is_blackjack h.cards) (!st.split_happened)).2) ∧
    (settle h st).stats = bumpStats st.stats
      (settleOutcomeSpec (hand_value h.cards) (hand_value st.dealer)
        h.bet (is_blackjack h.cards) (!st.split_happened)).1 ∧
    (settle h st).history = st.history ++
      [{ result := (settleOutcomeSpec (hand_value h.cards)
            (hand_value st.dealer) h.bet (is_blackjack h.cards)
            (!st.split_happened)).1,
         player_value := hand_value h.cards,
         dealer_value := hand_value st.dealer,
         bet := h.bet,
         payout := (settleOutcomeSpec (hand_value h.cards)
            (hand_value st.dealer) h.bet (is_blackjack h.cards)
            (!st.split_happened)).2,
         net := netFor (settleOutcomeSpec (hand_value h.cards)
            (hand_value st.dealer) h.bet (is_blackjack h.cards)
            (!st.split_happened)).1
           (settleOutcomeSpec (hand_value h.cards) (hand_value st.dealer)
            h.bet (is_blackjack h.cards) (!st.split_happened)).2 h.bet,
         player_cards := h.cards,
         dealer_cards := st.dealer }] := by
  by_cases h1 : 21 < hand_value h.cards
  · refine ⟨?_, ?_, ?_⟩ <;>
      simp [settle, settleOutcomeSpec, h1, log_history, bumpStats, netFor, hb]
  · by_cases h2 : (is_blackjack h.cards && !st.split_happened) = true
    · refine ⟨?_, ?_, ?_⟩ <;>
        simp [settle, settleOutcomeSpec, h1, h2, log_history, bumpStats, netFor,
          hb, bankAdd]
    · simp only [Bool.not_eq_true] at h2
      by_cases h3 : 21 < hand_value st.dealer
      · refine ⟨?_, ?_, ?_⟩ <;>
          simp [settle, settleOutcomeSpec, h1, h2, h3, log_history, bumpStats,
            netFor, hb, bankAdd]
      · by_cases h4 : hand_value st.dealer < hand_value h.cards
        · refine ⟨?_, ?_, ?_⟩ <;>
            simp [settle, settleOutcomeSpec, h1, h2, h3, h4, log_history,
              bumpStats, netFor, hb, bankAdd]
        · by_cases h5 : hand_value h.cards = hand_value st.dealer
          · refine ⟨?_, ?_, ?_⟩ <;>
              simp [settle, settleOutcomeSpec, h1, h2, h3, h4, h5, log_history,
                bumpStats, netFor, hb, bankAdd]
          · refine ⟨?_, ?_, ?_⟩ <;>
              simp [settle, settleOutcomeSpec, h1, h2, h3, h4, h5, log_history,
                bumpStats, netFor, hb, bankAdd]

/-- Concrete settlement state: player J♠ 10♦ (20) vs dealer K♣ Q♦ (20). -/
def stPush : GameState :=
  { baseState with in_hand := true, phase := .settle, bankroll := some 10000,
                   hands := [{ cards := [(jack, spades), (ten, diamonds)],
                               bet := 1000, stood := true, done := true }],
                   cur := 0, dealer := [(king, clubs), (queen, diamonds)] }

/-- Witness for C1: the 20-vs-20 push returns the stake and bumps `push`. -/
theorem settle_spec_witness :
    (settle { cards := [(jack, spades), (ten, diamonds)], bet := 1000,
              stood := true, done := true } stPush).bankroll = some 11000 ∧
    (settle { cards := [(jack, spades), (ten, diamonds)], bet := 1000,
              stood := true, done := true } stPush).stats =
      { played := 0, won := 0, lost := 0, push := 1 } := by
  have h := settle_spec stPush
    { cards := [(jack, spades), (ten, diamonds)], bet := 1000,
      stood := true, done := true } 10000 rfl
  refine ⟨?_, ?_⟩
  · rw [h.1]
    rfl
  · rw [h.2.1]
    rfl

-- ───────── C3: dealer peek on ten-value upcard ─────────

lemma resolve_dealer_blackjack_peek (s : GameState) :
    (resolve_dealer_blackjack s).peek_done = s.peek_done := by
  cases hh : s.hands[0]? with
  | none =>
      by_cases hi : 0 < s.insurance <;>
        simp [resolve_dealer_blackjack, hi, hh, bankAdd]
  | some h =>
      by_cases hi : 0 < s.insurance <;> by_cases hbj : is_blackjack h.cards <;>
        simp [resolve_dealer_blackjack, hi, hh, hbj, bankAdd, log_history]

/-- Concrete pre-round state refuting C3: the four cards about to be dealt
are player 5♠ 9♠ (no blackjack) against upcard K♥ with hole card A♥ —
a dealer blackjack behind a ten-value upcard. -/
def stTenUp : GameState :=
  { baseState with bankroll := some 10000,
                   shoe := { decks := 6,
                             cards := [(ace, hearts), (nine, spades),
                                       (king, hearts), (five, spades)] } }

/-- Counterexample to C3 as written: with no player blackjack and a
ten-value upcard, `start_round` performs no peek at all — `peek_done` stays
false and the round proceeds to the player phase even though the dealer
holds a blackjack that the claimed peek would have resolved (ending the
round at phase `idle`). -/
theorem start_round_ten_up_no_peek :
    (start_round id 1000 0 0 stTenUp).phase = Phase.player ∧
    (start_round id 1000 0 0 stTenUp).peek_done = false ∧
    (start_round id 1000 0 0 stTenUp).in_hand = true ∧
    (start_round id 1000 0 0 stTenUp).hands =
      [{ cards := [(five, spades), (nine, spades)], bet := 1000 }] ∧
    is_blackjack [(five, spades), (nine, spades)] = false ∧
    (start_round id 1000 0 0 stTenUp).dealer = [(king, hearts), (ace, hearts)] ∧
    is_blackjack [(king, hearts), (ace, hearts)] = true := by
  refine ⟨?_, ?_, ?_, ?_, by decide, ?_, by decide⟩ <;> rfl

/-- Corrected C3: after an initial deal with a ten-value upcard, the dealer
peeks only when the player holds blackjack: then `peek_done` is set and a
dealer blackjack ends the round at phase `idle`; when the player does not
hold blackjack there is no peek and the round proceeds to the player phase
with `peek_done` false (a dealer blackjack, if any, surfaces at normal
settlement). -/
theorem start_round_peek_spec (shuffle : List Card → List Card)
    (st : GameState) (b main : Nat) (rest : List Card) (c1 up c2 hole : Card)
    (hb : st.bankroll = some b) (hble : main ≤ b)
    (hshoe : st.shoe.cards = rest ++ [hole, c2, up, c1])
    (hup : up.1 = ten ∨ up.1 = jack ∨ up.1 = queen ∨ up.1 = king) :
    (is_blackjack [c1, c2] = false →
      (start_round shuffle main 0 0 st).phase = Phase.player ∧
      (start_round shuffle main 0 0 st).peek_done = false ∧
      (start_round shuffle main 0 0 st).in_hand = true) ∧
    (is_blackjack [c1, c2] = true →
      (start_round shuffle main 0 0 st).peek_done = true ∧
      (is_blackjack [up, hole] = true →
        (start_round shuffle main 0 0 st).phase = Phase.idle ∧
        (start_round shuffle main 0 0 st).in_hand = false)) := by
  have hnot : ¬ b < main + 0 + 0 := by omega
  have hnot2 : ¬ b < main := by omega
  have hace : ¬ up.1 = ace := by rcases hup with h | h | h | h <;> simp [h]
  have hcond : up.1 = ace ∨ up.1 = ten ∨ up.1 = jack ∨ up.1 = queen ∨
      up.1 = king := Or.inr hup
  have hd1 : Shoe.deal shuffle st.shoe =
      some (c1, ⟨st.shoe.decks, rest ++ [hole, c2, up]⟩) := by
    apply shoe_deal_concat
    rw [hshoe]
    simp
  have hd2 : Shoe.deal shuffle ⟨st.shoe.decks, rest ++ [hole, c2, up]⟩ =
      some (up, ⟨st.shoe.decks, rest ++ [hole, c2]⟩) := by
    apply shoe_deal_concat
    simp
  have hd3 : Shoe.deal shuffle ⟨st.shoe.decks, rest ++ [hole, c2]⟩ =
      some (c2, ⟨st.shoe.decks, rest ++ [hole]⟩) := by
    apply shoe_deal_concat
    simp
  have hd4 : Shoe.deal shuffle ⟨st.shoe.decks, rest ++ [hole]⟩ =
      some (hole, ⟨st.shoe.decks, rest⟩) :=
    shoe_deal_concat shuffle _ rest hole rfl
  constructor
  · intro hpbj
    refine ⟨?_, ?_, ?_⟩ <;>
      simp [start_round, hb, hnot, hnot2, hd1, hd2, hd3, hd4, hpbj,
        evaluate_sidebets]
  · intro hpbj
    by_cases hdbj : is_blackjack [up, hole] = true
    · refine ⟨?_, fun _ => ⟨?_, ?_⟩⟩ <;>
        simp [start_round, hb, hnot, hnot2, hup, hd1, hd2, hd3, hd4, hpbj,
          hcond, hace, hdbj, evaluate_sidebets, resolve_dealer_blackjack_peek,
          end_round]
    · simp only [Bool.not_eq_true] at hdbj
      refine ⟨?_, fun hc => absurd hc (by simp [hdbj])⟩
      simp [start_round, hb, hnot, hnot2, hup, hd1, hd2, hd3, hd4, hpbj,
        hcond, hace, hdbj, evaluate_sidebets]

/-- Pre-round state for the corrected-C3 witness: the deal will give the
player A♠ K♠ (blackjack) against upcard Q♥ with hole card A♥. -/
def stPlayerBJ : GameState :=
  { baseState with
      shoe := { decks := 6,
                cards := [(ace, hearts), (king, spades), (queen, hearts),
                          (ace, spades)] } }

/-- Witness for the corrected C3: with a player blackjack and a ten-value
upcard hiding a dealer blackjack, the peek happens and the round ends. -/
theorem start_round_peek_spec_witness :
    (start_round id 1000 0 0 stPlayerBJ).peek_done = true ∧
    (start_round id 1000 0 0 stPlayerBJ).phase = Phase.idle := by
  have h := (start_round_peek_spec id stPlayerBJ 10000 1000 []
    (ace, spades) (queen, hearts) (king, spades) (ace, hearts)
    rfl (by decide) rfl (Or.inr (Or.inr (Or.inl rfl)))).2 (by decide)
  exact ⟨h.1, (h.2 (by decide)).1⟩
